import Mathlib

/-!
Verification of the `SpectralNorm` parametrization module
(`torch/nn/utils/parametrizations.py`).

The module is shallowly embedded: tensors are a shape together with a flat
row-major data list over ℚ, stateful buffer updates become explicit state
passing on `SNState`, Python exceptions become `Except PyError`, and the
`warnings.warn` call becomes an explicit boolean in `forward`'s result.
Floating-point square root (inside `F.normalize`'s 2-norm) is abstracted as a
function parameter `sq : ℚ → ℚ`; no claim here depends on its value.
-/

namespace SpectralNormModel

/-- A tensor: a shape and its elements flattened in row-major (C-contiguous)
order. -/
structure Tensor where
  shape : List Nat
  data : List ℚ
deriving DecidableEq

/-- Well-formedness: the flat data has exactly as many elements as the shape
prescribes. -/
def Tensor.wf (t : Tensor) : Prop := t.data.length = t.shape.prod

/-- A 2-D matrix (the result of `_reshape_weight_to_matrix`), row-major. -/
structure Mat where
  rows : Nat
  cols : Nat
  data : List ℚ
deriving DecidableEq

/-- Entry `(i, j)` of a row-major matrix (out-of-range reads as 0; all uses
are in range). -/
def Mat.entry (M : Mat) (i j : Nat) : ℚ := M.data.getD (i * M.cols + j) 0

/-- Squared 2-norm passed through the abstract square root `sq`:
models `x.norm(2)`. -/
def norm2 (sq : ℚ → ℚ) (x : List ℚ) : ℚ := sq ((x.map (fun a => a * a)).sum)

/-- `F.normalize(x, dim=0, eps)`: divide each entry by `max(‖x‖₂, eps)`. -/
def normalize (sq : ℚ → ℚ) (eps : ℚ) (x : List ℚ) : List ℚ :=
  x.map (fun a => a / max (norm2 sq x) eps)

/-- `torch.mv M x` without the size check: row `i` of the result is the dot
product of row `i` of `M` with `x`. -/
def mvTot (M : Mat) (x : List ℚ) : List ℚ :=
  (List.range M.rows).map
    (fun i => ((List.range M.cols).map (fun j => M.entry i j * x.getD j 0)).sum)

/-- `torch.mv M.t() x` without the size check: entry `j` of the result is the
dot product of column `j` of `M` with `x`. -/
def mvTTot (M : Mat) (x : List ℚ) : List ℚ :=
  (List.range M.cols).map
    (fun i => ((List.range M.rows).map (fun j => M.entry j i * x.getD j 0)).sum)

/-- `torch.mv M x`: requires `x` to have length `M.cols`, else a
`RuntimeError` (modelled as `none`). -/
def mv (M : Mat) (x : List ℚ) : Option (List ℚ) :=
  if x.length = M.cols then some (mvTot M x) else none

/-- `torch.mv M.t() x`: requires `x` to have length `M.rows`. -/
def mvT (M : Mat) (x : List ℚ) : Option (List ℚ) :=
  if x.length = M.rows then some (mvTTot M x) else none

/-- `torch.dot x y` without the size check. -/
def dotTot (x y : List ℚ) : ℚ := (List.zipWith (fun a b => a * b) x y).sum

/-- `torch.dot x y`: requires equal lengths, else a `RuntimeError`. -/
def dotq (x y : List ℚ) : Option ℚ :=
  if x.length = y.length then some (dotTot x y) else none

/-- Flat data of `weight.permute(dim, *(other axes in order))` made
contiguous, where the original shape factors as
`A-block (product pA) ++ [d] ++ B-block (product pB)`.  Output linear index
`k = i*(pA*pB) + a*pB + b` holds the source element at linear index
`a*(d*pB) + i*pB + b`. -/
def permFrontData (pA d pB : Nat) (data : List ℚ) : List ℚ :=
  (List.range (d * (pA * pB))).map (fun k =>
    data.getD ((k % (pA * pB) / pB) * (d * pB) + k / (pA * pB) * pB + k % (pA * pB) % pB) 0)

/-- `SpectralNorm._reshape_weight_to_matrix`: if `dim ≠ 0`, permute `dim` to
the front (other axes keeping their relative order), then
`reshape(height, -1)` where `height` is the leading extent after the permute
and `-1` is inferred as `numel / height`. -/
def reshapeWeightToMatrix (dim : Nat) (w : Tensor) : Mat :=
  let pd : List ℚ :=
    if dim = 0 then w.data
    else
      permFrontData ((w.shape.take dim).prod) (w.shape.getD dim 0)
        ((w.shape.drop (dim + 1)).prod) w.data
  let height := w.shape.getD dim 0
  { rows := height, cols := pd.length / height, data := pd }

/-- The kinds of Python exception the module raises: `ValueError` at
construction, `RuntimeError` from `torch.mv`/`torch.dot` size checks. -/
inductive PyError where
  | valueError : PyError
  | runtimeError : PyError
deriving DecidableEq

/-- The state of a `SpectralNorm` instance: the constructor arguments it
stores plus the `u`/`v` buffers and the `buffers_initialized` flag. -/
structure SNState where
  dim : Nat
  nPowerIterations : Nat
  eps : ℚ
  u : List ℚ
  v : List ℚ
  buffersInit : Bool
deriving DecidableEq, Inhabited

/-- `SpectralNorm.__init__`: validates `n_power_iterations > 0` (raising
`ValueError` otherwise), reshapes the weight to an `h × w` matrix, and draws
`u` (length `h`) and `v` (length `w`) from the random streams
`randU`/`randV` (modelling `new_empty(·).normal_(0, 1)`), normalized with
the `eps` floor.  The flag starts false. -/
def construct (sq : ℚ → ℚ) (weight : Tensor) (nPowerIterations : Int) (dim : Nat)
    (eps : ℚ) (randU randV : Nat → ℚ) : Except PyError SNState :=
  if nPowerIterations ≤ 0 then .error .valueError
  else
    let M := reshapeWeightToMatrix dim weight
    let u := normalize sq eps ((List.range M.rows).map randU)
    let v := normalize sq eps ((List.range M.cols).map randV)
    .ok { dim := dim, nPowerIterations := nPowerIterations.toNat, eps := eps,
          u := u, v := v, buffersInit := false }

/-- The power-iteration loop body of `forward`, run `n` times: each iteration
first `v ← normalize(Wᵀ·u, eps)` then `u ← normalize(W·v, eps)`.  A failed
`torch.mv` size check aborts the loop (second component `false`), leaving the
buffers as mutated so far. -/
def runIters (sq : ℚ → ℚ) (eps : ℚ) (M : Mat) :
    Nat → List ℚ × List ℚ → (List ℚ × List ℚ) × Bool
  | 0, uv => (uv, true)
  | n + 1, (u, v) =>
    match mvT M u with
    | none => ((u, v), false)
    | some x =>
      let v' := normalize sq eps x
      match mv M v' with
      | none => ((u, v'), false)
      | some y => runIters sq eps M n (normalize sq eps y, v')

/-- `weight / sigma`: element-wise division by a scalar, same shape. -/
def divByScalar (w : Tensor) (c : ℚ) : Tensor :=
  { shape := w.shape, data := w.data.map (fun a => a / c) }

/-- `SpectralNorm.forward(weight)`.  Result: the post-call state (mutations
survive an exception, as in Python), whether the uninitialized-buffers
warning was emitted during the call, and the returned tensor or the raised
error.  Training mode: set `buffers_initialized`, run the power-iteration
loop (the final clone is a value-level no-op), then
`sigma = dot(u, mv(W, v))` and return `weight / sigma`.  Evaluation mode:
mutate nothing, warn iff the flag is still false, compute `sigma` the same
way. -/
def forward (sq : ℚ → ℚ) (training : Bool) (weight : Tensor) (s : SNState) :
    SNState × Bool × Except PyError Tensor :=
  if training then
    let s1 : SNState := { s with buffersInit := true }
    match runIters sq s.eps (reshapeWeightToMatrix s.dim weight) s.nPowerIterations (s.u, s.v) with
    | ((u', v'), ok) =>
      let s2 : SNState := { s1 with u := u', v := v' }
      if ok then
        match mv (reshapeWeightToMatrix s.dim weight) v' with
        | none => (s2, false, .error .runtimeError)
        | some wv =>
          match dotq u' wv with
          | none => (s2, false, .error .runtimeError)
          | some sigma => (s2, false, .ok (divByScalar weight sigma))
      else (s2, false, .error .runtimeError)
  else
    let warned := !s.buffersInit
    match mv (reshapeWeightToMatrix s.dim weight) s.v with
    | none => (s, warned, .error .runtimeError)
    | some wv =>
      match dotq s.u wv with
      | none => (s, warned, .error .runtimeError)
      | some sigma => (s, warned, .ok (divByScalar weight sigma))

/-- `SpectralNorm.right_inverse`: returns its argument unchanged. -/
def right_inverse (value : Tensor) : Tensor := value

/-- One abstract power-iteration step on `(u, v)` (no size checks): `v`
updated first from the current `u`, then `u` from the just-updated `v`. -/
def specStep (sq : ℚ → ℚ) (eps : ℚ) (M : Mat) (uv : List ℚ × List ℚ) :
    List ℚ × List ℚ :=
  let v' := normalize sq eps (mvTTot M uv.1)
  (normalize sq eps (mvTot M v'), v')


/-! ### Concrete instances used by counterexamples and witnesses -/

/-- A concrete 1×2 weight. -/
def wEx : Tensor := { shape := [1, 2], data := [1, 0] }

/-- The state of a freshly constructed estimator: `construct` on `wEx` with
`n_power_iterations = 1`, `dim = 0`, `eps = 10⁻⁶` and constant-1 random
streams (it succeeds, so the `getD` default is never taken). -/
def s0Ex : SNState :=
  (construct id wEx 1 0 (1/1000000) (fun _ => 1) (fun _ => 1)).toOption.getD default

/-- A concrete 1×3 weight, shape-inconsistent with `s0Ex`'s length-2 `v`. -/
def w13 : Tensor := { shape := [1, 3], data := [1, 2, 3] }

/-- A concrete 2×3 weight for the C6 (reshaper) witness. -/
def w23 : Tensor := { shape := [2, 3], data := [1, 2, 3, 4, 5, 6] }

/-- The evaluation-mode call used by the C4 witness. -/
def fwdEx : SNState × Bool × Except PyError Tensor := forward id false wEx s0Ex

/-- The tensor that call returns (it succeeds, so the error default is never
taken). -/
def tEx : Tensor :=
  match fwdEx.2.2 with
  | Except.ok t => t
  | Except.error _ => { shape := [], data := [] }

/-! ### Helper lemmas -/

theorem normalize_length (sq : ℚ → ℚ) (eps : ℚ) (x : List ℚ) :
    (normalize sq eps x).length = x.length := by
  simp [normalize]

theorem mvTot_length (M : Mat) (x : List ℚ) : (mvTot M x).length = M.rows := by
  simp [mvTot]

theorem mvTTot_length (M : Mat) (x : List ℚ) : (mvTTot M x).length = M.cols := by
  simp [mvTTot]

theorem mv_of_length (M : Mat) (x : List ℚ) (h : x.length = M.cols) :
    mv M x = some (mvTot M x) := by
  simp [mv, h]

theorem mvT_of_length (M : Mat) (x : List ℚ) (h : x.length = M.rows) :
    mvT M x = some (mvTTot M x) := by
  simp [mvT, h]

theorem eval_fst (sq : ℚ → ℚ) (w : Tensor) (s : SNState) :
    (forward sq false w s).1 = s := by
  unfold forward
  simp only [Bool.false_eq_true, if_false]
  repeat' split
  all_goals rfl

theorem eval_warn (sq : ℚ → ℚ) (w : Tensor) (s : SNState) :
    (forward sq false w s).2.1 = !s.buffersInit := by
  unfold forward
  simp only [Bool.false_eq_true, if_false]
  repeat' split
  all_goals rfl

theorem train_warn (sq : ℚ → ℚ) (w : Tensor) (s : SNState) :
    (forward sq true w s).2.1 = false := by
  unfold forward
  simp only [if_true]
  repeat' split
  all_goals rfl

theorem train_flag (sq : ℚ → ℚ) (w : Tensor) (s : SNState) :
    (forward sq true w s).1.buffersInit = true := by
  unfold forward
  simp only [if_true]
  repeat' split
  all_goals rfl

theorem mv_eq_some (M : Mat) (x y : List ℚ) (h : mv M x = some y) :
    x.length = M.cols ∧ y = mvTot M x := by
  unfold mv at h
  split at h <;> simp_all

theorem dotq_eq_some (x y : List ℚ) (c : ℚ) (h : dotq x y = some c) :
    x.length = y.length ∧ c = dotTot x y := by
  unfold dotq at h
  split at h <;> simp_all

theorem runIters_spec (sq : ℚ → ℚ) (eps : ℚ) (M : Mat) (n : Nat) (u v : List ℚ)
    (h : u.length = M.rows) :
    runIters sq eps M n (u, v) = ((specStep sq eps M)^[n] (u, v), true) := by
  induction n generalizing u v with
  | zero => simp [runIters]
  | succ k ih =>
    have hv : (normalize sq eps (mvTTot M u)).length = M.cols := by
      rw [normalize_length, mvTTot_length]
    have hu : (normalize sq eps (mvTot M (normalize sq eps (mvTTot M u)))).length = M.rows := by
      rw [normalize_length, mvTot_length]
    simp only [runIters, mvT_of_length M u h, mv_of_length _ _ hv, ih _ _ hu]
    rw [Function.iterate_succ_apply]
    rfl

theorem runIters_mismatch (sq : ℚ → ℚ) (eps : ℚ) (M : Mat) (k : Nat) (u v : List ℚ)
    (h : ¬u.length = M.rows) :
    runIters sq eps M (k + 1) (u, v) = ((u, v), false) := by
  simp [runIters, mvT, h]

theorem specStep_iterate_length (sq : ℚ → ℚ) (eps : ℚ) (M : Mat) (k : Nat)
    (uv : List ℚ × List ℚ) :
    ((specStep sq eps M)^[k + 1] uv).1.length = M.rows ∧
      ((specStep sq eps M)^[k + 1] uv).2.length = M.cols := by
  rw [Function.iterate_succ_apply']
  exact ⟨by rw [specStep, normalize_length, mvTot_length],
         by rw [specStep, normalize_length, mvTTot_length]⟩

theorem mv_none (M : Mat) (x : List ℚ) (h : ¬x.length = M.cols) : mv M x = none := by
  simp [mv, h]

theorem dotq_of_length (x y : List ℚ) (h : x.length = y.length) :
    dotq x y = some (dotTot x y) := by
  simp [dotq, h]

theorem dotq_none (x y : List ℚ) (h : ¬x.length = y.length) : dotq x y = none := by
  simp [dotq, h]

theorem forward_train_isOk_iff (sq : ℚ → ℚ) (w : Tensor) (s : SNState) (k : Nat)
    (hn : s.nPowerIterations = k + 1) :
    (forward sq true w s).2.2.isOk = true ↔
      s.u.length = (reshapeWeightToMatrix s.dim w).rows := by
  constructor
  · intro hOk
    by_contra hu
    unfold forward at hOk
    rw [hn, runIters_mismatch sq s.eps _ k s.u s.v hu] at hOk
    simp [Except.isOk, Except.toBool] at hOk
  · intro hu
    have hl := specStep_iterate_length sq s.eps (reshapeWeightToMatrix s.dim w) k (s.u, s.v)
    have hd : ((specStep sq s.eps (reshapeWeightToMatrix s.dim w))^[k + 1] (s.u, s.v)).1.length =
        (mvTot (reshapeWeightToMatrix s.dim w)
          ((specStep sq s.eps (reshapeWeightToMatrix s.dim w))^[k + 1] (s.u, s.v)).2).length := by
      rw [mvTot_length, hl.1]
    unfold forward
    rw [hn, runIters_spec sq s.eps _ (k + 1) s.u s.v hu]
    simp only [mv_of_length _ _ hl.2, dotq_of_length _ _ hd]
    rfl

theorem forward_eval_isOk_iff (sq : ℚ → ℚ) (w : Tensor) (s : SNState) :
    (forward sq false w s).2.2.isOk = true ↔
      s.u.length = (reshapeWeightToMatrix s.dim w).rows ∧
        s.v.length = (reshapeWeightToMatrix s.dim w).cols := by
  unfold forward
  simp only [Bool.false_eq_true, if_false]
  by_cases hv : s.v.length = (reshapeWeightToMatrix s.dim w).cols
  · simp only [mv_of_length _ _ hv]
    by_cases hu : s.u.length = (reshapeWeightToMatrix s.dim w).rows
    · have hd : s.u.length = (mvTot (reshapeWeightToMatrix s.dim w) s.v).length := by
        rw [mvTot_length, hu]
      rw [dotq_of_length _ _ hd]
      simp [hu, hv, Except.isOk, Except.toBool]
    · have hd : ¬s.u.length = (mvTot (reshapeWeightToMatrix s.dim w) s.v).length := by
        rw [mvTot_length]; exact hu
      rw [dotq_none _ _ hd]
      simp [hu, Except.isOk, Except.toBool]
  · simp only [mv_none _ _ hv]
    simp [hv, Except.isOk, Except.toBool]

theorem train_state_uv (sq : ℚ → ℚ) (w : Tensor) (s : SNState) :
    (forward sq true w s).1.u =
      (runIters sq s.eps (reshapeWeightToMatrix s.dim w) s.nPowerIterations (s.u, s.v)).1.1 ∧
    (forward sq true w s).1.v =
      (runIters sq s.eps (reshapeWeightToMatrix s.dim w) s.nPowerIterations (s.u, s.v)).1.2 := by
  unfold forward
  repeat' split
  all_goals simp_all

theorem forward_train_eq (sq : ℚ → ℚ) (w : Tensor) (s : SNState) (u' v' : List ℚ) (ok : Bool)
    (hr : runIters sq s.eps (reshapeWeightToMatrix s.dim w) s.nPowerIterations (s.u, s.v) =
      ((u', v'), ok)) :
    forward sq true w s =
      if ok then
        match mv (reshapeWeightToMatrix s.dim w) v' with
        | none =>
          ({ s with buffersInit := true, u := u', v := v' }, false,
            Except.error PyError.runtimeError)
        | some wv =>
          match dotq u' wv with
          | none =>
            ({ s with buffersInit := true, u := u', v := v' }, false,
              Except.error PyError.runtimeError)
          | some sigma =>
            ({ s with buffersInit := true, u := u', v := v' }, false,
              Except.ok (divByScalar w sigma))
      else
        ({ s with buffersInit := true, u := u', v := v' }, false,
          Except.error PyError.runtimeError) := by
  unfold forward
  rw [if_pos rfl, hr]

theorem forward_eval_eq (sq : ℚ → ℚ) (w : Tensor) (s : SNState) :
    forward sq false w s =
      match mv (reshapeWeightToMatrix s.dim w) s.v with
      | none => (s, !s.buffersInit, Except.error PyError.runtimeError)
      | some wv =>
        match dotq s.u wv with
        | none => (s, !s.buffersInit, Except.error PyError.runtimeError)
        | some sigma => (s, !s.buffersInit, Except.ok (divByScalar w sigma)) := by
  unfold forward
  rw [if_neg (by simp)]

theorem getD_eq_get {α : Type} (l : List α) (n : Nat) (d : α) (h : n < l.length) :
    l.getD n d = l[n] := by
  rw [List.getD_eq_getElem?_getD, List.getElem?_eq_getElem h]
  rfl

theorem getD_mem {α : Type} (l : List α) (n : Nat) (d : α) (h : n < l.length) :
    l.getD n d ∈ l := by
  rw [getD_eq_get l n d h]
  exact List.getElem_mem h

theorem getD_range_map (n k : Nat) (f : Nat → ℚ) (h : k < n) :
    ((List.range n).map f).getD k 0 = f k := by
  rw [List.getD_eq_getElem?_getD, List.getElem?_map, List.getElem?_range h]
  rfl

theorem prod_pos_of_mem_pos (l : List Nat) (hpos : ∀ e ∈ l, 0 < e) : 0 < l.prod := by
  by_contra h0
  have hz : l.prod = 0 := by omega
  rw [List.prod_eq_zero_iff] at hz
  exact absurd (hpos 0 hz) (by omega)

theorem shape_prod_factor (sh : List Nat) (dim : Nat) (h : dim < sh.length) :
    sh.prod = (sh.take dim).prod * (sh.getD dim 0 * (sh.drop (dim + 1)).prod) := by
  conv_lhs => rw [← List.take_append_drop dim sh]
  rw [List.prod_append, List.drop_eq_getElem_cons h, List.prod_cons,
    getD_eq_get sh dim 0 h]

theorem eraseIdx_prod (sh : List Nat) (dim : Nat) :
    (sh.eraseIdx dim).prod = (sh.take dim).prod * (sh.drop (dim + 1)).prod := by
  rw [List.eraseIdx_eq_take_drop_succ, List.prod_append]

theorem mul_block_lt (i r d q : Nat) (hi : i < d) (hr : r < q) : i * q + r < d * q :=
  calc i * q + r < i * q + q := by omega
  _ = (i + 1) * q := by ring
  _ ≤ d * q := Nat.mul_le_mul_right q hi

theorem decode_front (i r q : Nat) (hr : r < q) :
    (i * q + r) / q = i ∧ (i * q + r) % q = r := by
  have h1 : i * q + r = q * i + r := by ring
  constructor
  · rw [h1, Nat.mul_add_div (by omega) i r, Nat.div_eq_of_lt hr]
    omega
  · rw [h1, Nat.mul_add_mod q i r, Nat.mod_eq_of_lt hr]

theorem permFrontData_length (pA d pB : Nat) (data : List ℚ) :
    (permFrontData pA d pB data).length = d * (pA * pB) := by
  simp [permFrontData]

/-! ### Claim theorems -/

/-- C1 (counterexample): on a freshly constructed estimator (`s0Ex` is
exactly what `construct` returns), the first evaluation-mode call emits the
uninitialized warning, and a second evaluation-mode call on the resulting
instance emits it **again** — contradicting "the warning fires exactly once
per instance". -/
theorem warning_reemitted_on_second_eval_call :
    s0Ex.buffersInit = false ∧
    (forward id false wEx s0Ex).2.1 = true ∧
    (forward id false wEx ((forward id false wEx s0Ex).1)).2.1 = true := by
  decide

/-- C1 (amended): an evaluation-mode call emits the uninitialized warning iff
the `buffers_initialized` flag is still false, and it leaves the state (hence
the flag) unchanged — so a never-trained instance warns on **every**
evaluation-mode call, not exactly once; training-mode calls never warn. -/
theorem eval_warning_every_uninitialized_call (sq : ℚ → ℚ) (w : Tensor) (s : SNState) :
    (forward sq false w s).2.1 = !s.buffersInit ∧
    (forward sq false w s).1 = s ∧
    (forward sq true w s).2.1 = false :=
  ⟨eval_warn sq w s, eval_fst sq w s, train_warn sq w s⟩

/-- C2: a training-mode call updates the `(u, v)` buffers by exactly
`n_power_iterations` applications of `specStep`, which per iteration first
sets `v' = normalize(Wᵀ·u, eps)` from the current `u` and then
`u' = normalize(W·v', eps)` from the just-updated `v'`. -/
theorem training_runs_exactly_n_power_iterations (sq : ℚ → ℚ) (w : Tensor) (s : SNState)
    (h : s.u.length = (reshapeWeightToMatrix s.dim w).rows) :
    ((forward sq true w s).1.u, (forward sq true w s).1.v) =
      (specStep sq s.eps (reshapeWeightToMatrix s.dim w))^[s.nPowerIterations] (s.u, s.v) := by
  rw [(train_state_uv sq w s).1, (train_state_uv sq w s).2,
    runIters_spec sq s.eps _ s.nPowerIterations s.u s.v h]

/-- Witness for C2 at a concrete instance. -/
theorem training_runs_exactly_n_power_iterations_witness :
    s0Ex.u.length = (reshapeWeightToMatrix s0Ex.dim wEx).rows ∧
    ((forward id true wEx s0Ex).1.u, (forward id true wEx s0Ex).1.v) =
      (specStep id s0Ex.eps (reshapeWeightToMatrix s0Ex.dim wEx))^[s0Ex.nPowerIterations]
        (s0Ex.u, s0Ex.v) :=
  ⟨by decide, training_runs_exactly_n_power_iterations id wEx s0Ex (by decide)⟩

/-- C3: an evaluation-mode call leaves the `u` and `v` buffers (indeed the
whole state) unchanged, and so does any sequence of consecutive
evaluation-mode calls. -/
theorem eval_calls_leave_buffers_unchanged (sq : ℚ → ℚ) (w : Tensor) (s : SNState)
    (ws : List Tensor) :
    (forward sq false w s).1.u = s.u ∧
    (forward sq false w s).1.v = s.v ∧
    ws.foldl (fun st wt => (forward sq false wt st).1) s = s := by
  refine ⟨by rw [eval_fst], by rw [eval_fst], ?_⟩
  induction ws with
  | nil => rfl
  | cons wt ws ih => rw [List.foldl_cons, eval_fst]; exact ih

/-- C4: whenever `forward` returns a tensor (either mode), that tensor is
`weight / sigma` with `sigma = dot(u, W·v)` computed from the post-call
buffers and the reshaped weight `W`, and it has the weight's shape. -/
theorem forward_returns_weight_div_sigma (sq : ℚ → ℚ) (training : Bool) (w : Tensor)
    (s s' : SNState) (warned : Bool) (t : Tensor)
    (h : forward sq training w s = (s', warned, Except.ok t)) :
    t = divByScalar w (dotTot s'.u (mvTot (reshapeWeightToMatrix s.dim w) s'.v)) ∧
    t.shape = w.shape := by
  cases training with
  | true =>
    rcases hr : runIters sq s.eps (reshapeWeightToMatrix s.dim w) s.nPowerIterations (s.u, s.v)
      with ⟨⟨u', v'⟩, ok⟩
    rw [forward_train_eq sq w s u' v' ok hr] at h
    cases ok with
    | false => simp at h
    | true =>
      rw [if_pos rfl] at h
      cases hmv : mv (reshapeWeightToMatrix s.dim w) v' with
      | none => simp [hmv] at h
      | some wv =>
        simp only [hmv] at h
        cases hdot : dotq u' wv with
        | none => simp [hdot] at h
        | some sigma =>
          simp only [hdot, Prod.mk.injEq, Except.ok.injEq] at h
          obtain ⟨hs, hwarn, ht⟩ := h
          obtain ⟨hwv, hw⟩ := mv_eq_some _ _ _ hmv
          obtain ⟨hlen, hsig⟩ := dotq_eq_some _ _ _ hdot
          subst hw
          subst hsig
          subst ht
          subst hs
          exact ⟨rfl, rfl⟩
  | false =>
    rw [forward_eval_eq] at h
    cases hmv : mv (reshapeWeightToMatrix s.dim w) s.v with
    | none => simp [hmv] at h
    | some wv =>
      simp only [hmv] at h
      cases hdot : dotq s.u wv with
      | none => simp [hdot] at h
      | some sigma =>
        simp only [hdot, Prod.mk.injEq, Except.ok.injEq] at h
        obtain ⟨hs, hwarn, ht⟩ := h
        obtain ⟨hwv, hw⟩ := mv_eq_some _ _ _ hmv
        obtain ⟨hlen, hsig⟩ := dotq_eq_some _ _ _ hdot
        subst hw
        subst hsig
        subst ht
        subst hs
        exact ⟨rfl, rfl⟩

/-- Witness for C4 at a concrete instance. -/
theorem forward_returns_weight_div_sigma_witness :
    forward id false wEx s0Ex = (fwdEx.1, fwdEx.2.1, Except.ok tEx) ∧
    (tEx = divByScalar wEx
        (dotTot fwdEx.1.u (mvTot (reshapeWeightToMatrix s0Ex.dim wEx) fwdEx.1.v)) ∧
      tEx.shape = wEx.shape) :=
  have hEq : forward id false wEx s0Ex = (fwdEx.1, fwdEx.2.1, Except.ok tEx) := rfl
  ⟨hEq, forward_returns_weight_div_sigma id false wEx s0Ex fwdEx.1 fwdEx.2.1 tEx hEq⟩

/-- C5: construction raises `ValueError` exactly when
`n_power_iterations ≤ 0`; with any positive value it returns a state (never
this error). -/
theorem construct_valueError_iff_nonpositive_iterations (sq : ℚ → ℚ) (w : Tensor)
    (nPI : Int) (dim : Nat) (eps : ℚ) (randU randV : Nat → ℚ) :
    construct sq w nPI dim eps randU randV = Except.error PyError.valueError ↔ nPI ≤ 0 := by
  unfold construct
  split <;> simp_all

/-- C8: `right_inverse` is the identity: it returns its argument unchanged,
with no validation or projection. -/
theorem right_inverse_is_identity (value : Tensor) : right_inverse value = value := rfl

/-- C9: `eps` is never validated at construction: for every rational `eps`
(including 0 and negatives), construction with positive `n_power_iterations`
succeeds and stores that `eps` verbatim. -/
theorem construct_accepts_any_eps (sq : ℚ → ℚ) (w : Tensor) (nPI : Int) (dim : Nat)
    (randU randV : Nat → ℚ) (eps : ℚ) (h : 0 < nPI) :
    ∃ s, construct sq w nPI dim eps randU randV = Except.ok s ∧ s.eps = eps := by
  unfold construct
  rw [if_neg (by omega)]
  exact ⟨_, rfl, rfl⟩

/-- Witness for C9 at a concrete instance with a negative `eps`. -/
theorem construct_accepts_any_eps_witness :
    0 < (1 : Int) ∧
    ∃ s, construct id wEx 1 0 (-1) (fun _ => 1) (fun _ => 1) = Except.ok s ∧ s.eps = -1 :=
  ⟨by decide, construct_accepts_any_eps id wEx 1 0 (fun _ => 1) (fun _ => 1) (-1) (by decide)⟩

/-- C10: a training-mode call always leaves `buffers_initialized` true — the
flag is set before the power iterations, so it stays true even when the call
ends in an error (there is no rollback). -/
theorem training_sets_initialized_flag_even_on_failure (sq : ℚ → ℚ) (w : Tensor)
    (s : SNState) :
    (forward sq true w s).1.buffersInit = true :=
  train_flag sq w s

/-- C7 (counterexample): with the freshly constructed `s0Ex` estimator (whose
`v` has length 2), a **training-mode** call with the 1×3 weight `w13` —
shape-inconsistent with `v` — succeeds and returns a result instead of
failing. -/
theorem shape_mismatch_training_call_succeeds :
    ¬s0Ex.v.length = (reshapeWeightToMatrix s0Ex.dim w13).cols ∧
    (forward id true w13 s0Ex).2.2.isOk = true := by
  decide

/-- C7 (amended): a training-mode call fails (RuntimeError from the first
`torch.mv`) iff `u`'s length differs from the reshaped weight's row count —
a column-count change alone succeeds, resizing `v`; an evaluation-mode call
fails iff `u` or `v` mismatches the reshaped weight.  In particular a 5×6
weight after a 4×6 construction fails in both modes. -/
theorem forward_failure_characterization (sq : ℚ → ℚ) (w : Tensor) (s : SNState)
    (k : Nat) (hn : s.nPowerIterations = k + 1) :
    ((forward sq true w s).2.2.isOk = true ↔
      s.u.length = (reshapeWeightToMatrix s.dim w).rows) ∧
    ((forward sq false w s).2.2.isOk = true ↔
      s.u.length = (reshapeWeightToMatrix s.dim w).rows ∧
        s.v.length = (reshapeWeightToMatrix s.dim w).cols) :=
  ⟨forward_train_isOk_iff sq w s k hn, forward_eval_isOk_iff sq w s⟩

/-- Witness for C7 (amended) at a concrete instance. -/
theorem forward_failure_characterization_witness :
    s0Ex.nPowerIterations = 0 + 1 ∧
    (((forward id true w13 s0Ex).2.2.isOk = true ↔
      s0Ex.u.length = (reshapeWeightToMatrix s0Ex.dim w13).rows) ∧
    ((forward id false w13 s0Ex).2.2.isOk = true ↔
      s0Ex.u.length = (reshapeWeightToMatrix s0Ex.dim w13).rows ∧
        s0Ex.v.length = (reshapeWeightToMatrix s0Ex.dim w13).cols)) :=
  ⟨rfl, forward_failure_characterization id w13 s0Ex 0 rfl⟩

/-- C6: for every well-formed weight and axis `dim` in range (with positive
extents), `_reshape_weight_to_matrix` returns a matrix whose row count is the
extent along `dim` and whose column count is the product of the remaining
extents, and its element order is exactly: `dim` permuted to the front with
the other axes in their original relative order, then the trailing axes
flattened — entry at linear position `i·(pA·pB) + a·pB + b` is the weight
element at linear position `a·(d·pB) + i·pB + b`, where `pA`/`pB` are the
products of the extents before/after `dim` and `d` the extent at `dim`.
The mapping depends only on the shape, so equal shapes give identical
reshapes. -/
theorem reshape_matrix_shape_and_order (w : Tensor) (dim : Nat)
    (hwf : w.wf) (hdim : dim < w.shape.length) (hpos : ∀ e ∈ w.shape, 0 < e) :
    (reshapeWeightToMatrix dim w).rows = w.shape.getD dim 0 ∧
    (reshapeWeightToMatrix dim w).cols = (w.shape.eraseIdx dim).prod ∧
    ∀ i a b, i < w.shape.getD dim 0 → a < (w.shape.take dim).prod →
      b < (w.shape.drop (dim + 1)).prod →
      (reshapeWeightToMatrix dim w).data.getD
          (i * ((w.shape.take dim).prod * (w.shape.drop (dim + 1)).prod) +
            (a * (w.shape.drop (dim + 1)).prod + b)) 0 =
        w.data.getD
          (a * (w.shape.getD dim 0 * (w.shape.drop (dim + 1)).prod) +
            (i * (w.shape.drop (dim + 1)).prod + b)) 0 := by
  have hd : 0 < w.shape.getD dim 0 := hpos _ (getD_mem _ _ _ hdim)
  have hlen : w.data.length =
      (w.shape.take dim).prod * (w.shape.getD dim 0 * (w.shape.drop (dim + 1)).prod) :=
    hwf.trans (shape_prod_factor _ _ hdim)
  refine ⟨rfl, ?_, ?_⟩
  · by_cases hd0 : dim = 0
    · subst hd0
      show w.data.length / w.shape.getD 0 0 = _
      rw [hlen, eraseIdx_prod]
      simp only [List.take_zero, List.prod_nil, one_mul]
      exact Nat.mul_div_cancel_left _ hd
    · have hcols : (reshapeWeightToMatrix dim w).cols =
          (permFrontData ((w.shape.take dim).prod) (w.shape.getD dim 0)
            ((w.shape.drop (dim + 1)).prod) w.data).length / w.shape.getD dim 0 := by
        simp only [reshapeWeightToMatrix, if_neg hd0]
      rw [hcols, permFrontData_length, eraseIdx_prod, Nat.mul_div_cancel_left _ hd]
  · intro i a b hi ha hb
    by_cases hd0 : dim = 0
    · subst hd0
      have ha' : a = 0 := by simpa using ha
      subst ha'
      show w.data.getD _ 0 = w.data.getD _ 0
      simp only [List.take_zero, List.prod_nil, one_mul, Nat.zero_mul, Nat.zero_add]
    · have hdata : (reshapeWeightToMatrix dim w).data =
          permFrontData ((w.shape.take dim).prod) (w.shape.getD dim 0)
            ((w.shape.drop (dim + 1)).prod) w.data := by
        simp only [reshapeWeightToMatrix, if_neg hd0]
      have hr : a * (w.shape.drop (dim + 1)).prod + b <
          (w.shape.take dim).prod * (w.shape.drop (dim + 1)).prod :=
        mul_block_lt a b _ _ ha hb
      have hk : i * ((w.shape.take dim).prod * (w.shape.drop (dim + 1)).prod) +
          (a * (w.shape.drop (dim + 1)).prod + b) <
          w.shape.getD dim 0 * ((w.shape.take dim).prod * (w.shape.drop (dim + 1)).prod) :=
        mul_block_lt i _ _ _ hi hr
      rw [hdata, permFrontData, getD_range_map _ _ _ hk]
      rw [(decode_front i _ _ hr).1, (decode_front i _ _ hr).2,
        (decode_front a b _ hb).1, (decode_front a b _ hb).2]
      congr 1
      ring
/-- Witness for C6 at a concrete instance: the 2×3 weight `w23` with
`dim = 1`, checking the shape conclusions and the element mapping at
`i = 2, a = 1, b = 0`. -/
theorem reshape_matrix_shape_and_order_witness :
    (w23.data.length = w23.shape.prod ∧ 1 < w23.shape.length ∧ ∀ e ∈ w23.shape, 0 < e) ∧
    (reshapeWeightToMatrix 1 w23).rows = w23.shape.getD 1 0 ∧
    (reshapeWeightToMatrix 1 w23).cols = (w23.shape.eraseIdx 1).prod ∧
    (reshapeWeightToMatrix 1 w23).data.getD
        (2 * ((w23.shape.take 1).prod * (w23.shape.drop 2).prod) +
          (1 * (w23.shape.drop 2).prod + 0)) 0 =
      w23.data.getD
        (1 * (w23.shape.getD 1 0 * (w23.shape.drop 2).prod) +
          (2 * (w23.shape.drop 2).prod + 0)) 0 :=
  have hwf : w23.data.length = w23.shape.prod := by decide
  have h := reshape_matrix_shape_and_order w23 1 hwf (by decide) (by decide)
  ⟨⟨hwf, by decide, by decide⟩, h.1, h.2.1,
    h.2.2 2 1 0 (by decide) (by decide) (by decide)⟩

end SpectralNormModel
